import Mathlib

/-!
# Verification of the resolution-refutation engine

Shallow embedding of the repository's two inference modules:

* `fol.py` — string-based first-order literals, unification, substitution and
  a resolution refutation loop (namespace `FOL` below);
* `wumpus_world.py` — propositional formulas, CNF conversion, clause
  extraction and a propositional resolution refutation loop
  (namespace `Wumpus` below).

Python strings are modelled as Lean `String` (a sequence of unicode
characters, `List Char`); all character-level operations below work on
`String.data` directly so that they mirror Python's character-indexed
semantics.  Python `set`/`frozenset` values of strings are modelled as
canonical (strictly sorted, duplicate-free) `List String` values, so that
structural set equality coincides with Lean's `=`; the sort order is an
embedding device only — no Python behaviour that we verify depends on
iteration order.  Python `dict` (used for substitutions) is modelled as an
insertion-ordered association list with update-in-place semantics.
Unbounded `while True` loops and recursion whose termination is not
structural are modelled with an explicit fuel parameter returning `Option`:
`none` means the program would still be running after that much fuel.
-/

/-- Strict lexicographic order on lists induced by a strict order on
elements (`lt x y`, `lt y x` both false means the elements are equal). -/
def listLtB (lt : α → α → Bool) : List α → List α → Bool
  | [], [] => false
  | [], _ :: _ => true
  | _ :: _, [] => false
  | x :: xs, y :: ys => if lt x y then true else if lt y x then false else listLtB lt xs ys

/-- Strict order on characters by code point. -/
def charLtB (a b : Char) : Bool := decide (a < b)

/-- Strict lexicographic order on strings. -/
def strLtB (a b : String) : Bool := listLtB charLtB a.data b.data

/-- Insert into a strictly sorted duplicate-free list, keeping it sorted and
duplicate-free.  This is the embedding of adding an element to a Python set. -/
def sinsert (lt : α → α → Bool) (x : α) : List α → List α
  | [] => [x]
  | y :: ys => if lt x y then x :: y :: ys else if lt y x then y :: sinsert lt x ys else y :: ys

/-- Set union: insert every element of `a` into the canonical list `b`. -/
def sunion (lt : α → α → Bool) (a b : List α) : List α :=
  a.foldr (fun x acc => sinsert lt x acc) b

/-- A Python `frozenset` of literal strings (one clause), in canonical form. -/
abbrev Clause := List String

/-- Strict order on clauses (lexicographic on the canonical literal lists). -/
def clauseLtB : Clause → Clause → Bool := listLtB strLtB

/-- Build the canonical set of a list of literal strings
(the embedding of `set(...)` / `frozenset(...)` over strings). -/
def mkClause (l : List String) : Clause := l.foldr (sinsert strLtB) []

/-- Build the canonical set of a list of clauses
(the embedding of a Python set of frozensets). -/
def mkClauseSet (l : List Clause) : List Clause := l.foldr (sinsert clauseLtB) []

/-- All index pairs `(i, j)` with `i < j` of a list, in the order Python's
`[(l[i], l[j]) for i in range(n) for j in range(i+1, n)]` produces them. -/
def pairsOf : List α → List (α × α)
  | [] => []
  | x :: xs => xs.map (fun y => (x, y)) ++ pairsOf xs

namespace FOL

/-- The first-order example knowledge base of `fol.py`'s `main()` and of the
spec's testable property 5. -/
def folMainKB : List (List String) :=
  [["¬King(x)", "¬Greedy(x)", "Evil(x)"], ["King(John)"], ["Greedy(John)"]]

/-- `'¬'`-test on the first character: Python `s.startswith("¬")`. -/
def startsNeg (s : String) : Bool :=
  match s.data with
  | c :: _ => c = '¬'
  | [] => false

/-- Python `s[1:]`: drop the first character. -/
def strTail (s : String) : String := ⟨s.data.drop 1⟩

/-- `negate_query` from `fol.py`: strip a leading `¬`, else prepend one. -/
def negate_query (query : String) : String :=
  if startsNeg query then strTail query else "¬" ++ query

/-- `prepare_kb_with_negated_query` from `fol.py`: copy the KB and append the
singleton clause holding the negated query. -/
def prepare_kb_with_negated_query (kb : List (List String)) (query : String) :
    List (List String) :=
  kb ++ [[negate_query query]]

/-- A character matched by the regex class `\w` (ASCII range, which is all the
repository's alphabet uses): letters, digits, underscore. -/
def isWordChar (c : Char) : Bool := c.isAlphanum || c = '_'

/-- A character matched by the regex class `\s`. -/
def isPySpace (c : Char) : Bool :=
  c = ' ' || c = '\t' || c = '\n' || c = '\x0d' || c = '\x0b' || c = '\x0c'

/-- `re.split(r",\s*", text)`: split on every comma and strip the whitespace
run that follows each comma (pieces after the first lose leading whitespace). -/
def splitCommaWs (l : List Char) : List (List Char) :=
  match l.splitOn ',' with
  | [] => [[]]
  | p :: ps => p :: ps.map (fun q => q.dropWhile isPySpace)

/-- `parse_sentence` from `fol.py`: match the anchored regex
`(¬?\w+)\((.*)\)` — an optional `¬`, a maximal nonempty run of word
characters, a literal `(`, then a greedy `.*` group ending at the *last* `)`
of the string — and split the second group with `re.split(r",\s*", ...)`.
Python returns `(None, [])` on no match, modelled as `(none, [])`. -/
def parse_sentence (s : String) : Option String × List String :=
  let l := s.data
  let hasNeg : Bool := match l with | '¬' :: _ => true | _ => false
  let rest := if hasNeg then l.drop 1 else l
  let word := rest.takeWhile isWordChar
  if word.isEmpty then (none, [])
  else
    match rest.drop word.length with
    | '(' :: tail =>
      match tail.reverse.dropWhile (fun c => decide (c ≠ ')')) with
      | ')' :: innerRev =>
        let pred : String := ⟨(if hasNeg then ['¬'] else []) ++ word⟩
        let args := (splitCommaWs innerRev.reverse).map (fun cs => (⟨cs⟩ : String))
        (some pred, args)
      | _ => (none, [])
    | _ => (none, [])

/-- `is_variable` from `fol.py`:
`len(term) > 0 and term[0].islower() and term.isalpha()`. -/
def is_variable (term : String) : Bool :=
  match term.data with
  | [] => false
  | c :: cs => c.isLower && (c :: cs).all Char.isAlpha

/-- A substitution: Python `dict` from variable names to term strings,
modelled as an insertion-ordered association list. -/
abbrev Subst := List (String × String)

/-- `substitutions[key] = value` on a Python dict: update in place if the key
is present, else append. -/
def subst_insert (σ : Subst) (k v : String) : Subst :=
  if σ.any (fun p => p.1 = k) then σ.map (fun p => if p.1 = k then (k, v) else p)
  else σ ++ [(k, v)]

/-- `apply_substitution_to_term` from `fol.py`:
`substitution.get(term, term) if is_variable(term) else term`. -/
def apply_substitution_to_term (term : String) (substitution : Subst) : String :=
  if is_variable term then ((substitution.lookup term).getD term) else term

/-- `unify_terms` from `fol.py`.  The Python function mutates the
substitution dict and returns a bool; here the updated substitution is
threaded explicitly, `none` standing for `False` (the caller then discards
the partial substitution, as `unify` does).  Recursion into nested compound
terms is not structural on the strings, so a fuel parameter bounds the
nesting depth; `unify` below passes fuel larger than any term length, which
over-approximates the parse-tree depth, so the `none`-for-fuel case is never
hit on inputs reachable from `unify`. -/
def unify_terms : Nat → String → String → Subst → Option Subst
  | 0, _, _, _ => none
  | fuel + 1, t1, t2, σ =>
    let t1 := apply_substitution_to_term t1 σ
    let t2 := apply_substitution_to_term t2 σ
    if t1 = t2 then some σ
    else if is_variable t1 then some (subst_insert σ t1 t2)
    else if is_variable t2 then some (subst_insert σ t2 t1)
    else
      match parse_sentence t1, parse_sentence t2 with
      | (some p1, args1), (some p2, args2) =>
        if p1 = p2 ∧ args1.length = args2.length then
          (args1.zip args2).foldl
            (fun acc pr => acc.bind (fun σ => unify_terms fuel pr.1 pr.2 σ)) (some σ)
        else none
      | _, _ => none

/-- `unify` from `fol.py`.  Note: every failure path returns the *empty
dict* `{}` (here `[]`), the same value a successful unification with nothing
to bind returns. -/
def unify (sentence1 sentence2 : String) : Subst :=
  let (predicate1, args1) := parse_sentence sentence1
  let (predicate2, args2) := parse_sentence sentence2
  if predicate1 ≠ predicate2 then []
  else if args1.length ≠ args2.length then []
  else
    match (args1.zip args2).foldl
        (fun acc pr => acc.bind
          (fun σ => unify_terms (sentence1.length + sentence2.length) pr.1 pr.2 σ))
        (some ([] : Subst)) with
    | some σ => σ
    | none => []

/-- `', '.join(args)`. -/
def joinArgs : List String → String
  | [] => ""
  | [a] => a
  | a :: rest => a ++ ", " ++ joinArgs rest

/-- `apply_substitution_to_literal` from `fol.py`: re-parse the literal,
substitute each argument, and rebuild `predicate + '(' + ', '.join(...) + ')'`.
(When the literal does not parse, Python raises a `TypeError`; that case is
unreachable in every verified flow — all literals there parse — and is
modelled as returning the literal unchanged.) -/
def apply_substitution_to_literal (literal : String) (substitution : Subst) : String :=
  match parse_sentence literal with
  | (some predicate, args) =>
    predicate ++ "(" ++ joinArgs (args.map (fun a => apply_substitution_to_term a substitution)) ++ ")"
  | (none, _) => literal

/-- Python `s.split('(')[0]`: the prefix before the first `'('`. -/
def predSym (s : String) : String := ⟨s.data.takeWhile (fun c => decide (c ≠ '('))⟩

/-- The complementary-pair test and unification call of one iteration of the
double loop in `resolve` (`fol.py` lines 77–84): `some σ` when the pair has
opposite polarity and matching predicate symbol (`σ` the dict returned by
`unify`, which is `[]` both on failure and on a zero-binding success);
`none` is Python's `continue`. -/
def pairSubst (literal1 literal2 : String) : Option Subst :=
  if startsNeg literal1 ∧ ¬ startsNeg literal2 ∧ predSym (strTail literal1) = predSym literal2 then
    some (unify (strTail literal1) literal2)
  else if ¬ startsNeg literal1 ∧ startsNeg literal2 ∧ predSym literal1 = predSym (strTail literal2) then
    some (unify literal1 (strTail literal2))
  else
    none

/-- The resolvent `resolve` builds for one complementary pair:
`(clause1 | clause2) - {literal1, literal2}`, with the substitution applied
to every remaining literal and the result collected as a frozenset. -/
def pairResolvent (clause1 clause2 : Clause) (literal1 literal2 : String) (σ : Subst) : Clause :=
  let new_clause := (sunion strLtB clause1 clause2).filter
    (fun l => decide (l ≠ literal1) && decide (l ≠ literal2))
  mkClause (new_clause.map (fun l => apply_substitution_to_literal l σ))

/-- `resolve` from `fol.py`: for every literal pair of the two clauses whose
polarities are opposite and predicate symbols match, unify and add the
substituted resolvent to the result set.  The Python guard
`if substitution is not None` is always true because `unify` returns a dict
on every path, so every matching pair contributes a resolvent. -/
def resolve (clause1 clause2 : Clause) : List Clause :=
  clause1.foldl
    (fun acc literal1 =>
      clause2.foldl
        (fun acc2 literal2 =>
          match pairSubst literal1 literal2 with
          | some σ => sinsert clauseLtB (pairResolvent clause1 clause2 literal1 literal2 σ) acc2
          | none => acc2)
        acc)
    []

/-- One round of the `while True` loop of `inference_by_resolution`
(`fol.py` lines 99–114): resolve every pair `(ci, cj)` with `ci` newly
derived and `cj` in the clause set, skipping `ci == cj` and — via
`processed_pairs` — skipping an unordered pair already resolved in this
round.  Returns the set of all resolvents of the round. -/
def roundResolvents (clauses new_clauses : List Clause) : List Clause :=
  (new_clauses.foldl
    (fun st ci =>
      clauses.foldl
        (fun st2 cj =>
          if ci = cj then st2
          else
            let pair := if clauseLtB cj ci then (cj, ci) else (ci, cj)
            if pair ∈ st2.1 then st2
            else (pair :: st2.1, sunion clauseLtB (resolve ci cj) st2.2))
        st)
    (([] : List (Clause × Clause)), ([] : List Clause))).2

/-- The `while True` refutation loop of `inference_by_resolution`: return
`true` when a round derives the empty clause, `false` when a round adds no
new clause, else continue with the enlarged clause set and the new frontier.
The loop has no iteration bound in the source; the fuel argument is an
embedding device counting rounds, and `none` means the Python loop would
still be running after that many rounds. -/
def refutationLoop : Nat → List Clause → List Clause → Option Bool
  | 0, _, _ => none
  | fuel + 1, clauses, new_clauses =>
    let resolvents := roundResolvents clauses new_clauses
    if ([] : Clause) ∈ resolvents then some true
    else
      let next_new_clauses := resolvents.filter (fun c => decide (c ∉ clauses))
      if next_new_clauses = [] then some false
      else refutationLoop fuel (sunion clauseLtB clauses next_new_clauses) next_new_clauses

/-- `inference_by_resolution` from `fol.py`: append the negated query to the
KB, seed the frontier with the negated-query clause, and run the refutation
loop.  The source loop is unbounded and returns only `True`/`False`; see
`refutationLoop` for the fuel convention. -/
def inference_by_resolution (fuel : Nat) (kb : List (List String)) (query : String) :
    Option Bool :=
  let kb := prepare_kb_with_negated_query kb query
  let clauses := mkClauseSet (kb.map mkClause)
  let new_clauses := mkClauseSet [mkClause [negate_query query]]
  refutationLoop fuel clauses new_clauses

end FOL

namespace Wumpus

/-- The propositional formula trees of `wumpus_world.py`: a bare atom string
or a tuple tagged with one of the connectives NOT/AND/OR/IMPLIES/IFF.  The
spec's grammar (and every formula the module builds) uses the binary forms,
so the connectives are binary constructors here. -/
inductive Formula where
  | atom (s : String)
  | NOT (a : Formula)
  | AND (a b : Formula)
  | OR (a b : Formula)
  | IMPLIES (a b : Formula)
  | IFF (a b : Formula)
deriving DecidableEq, Repr

/-- Truth-value semantics of a formula under a valuation, exactly the
connective semantics of `World.ask` (`wumpus_world.py` lines 38–56): an atom
is looked up (`sentence in self.facts`), NOT/AND/OR/IMPLIES are boolean,
IFF compares the two sides for equality. -/
def ask (v : String → Bool) : Formula → Bool
  | .atom s => v s
  | .NOT a => !(ask v a)
  | .AND a b => ask v a && ask v b
  | .OR a b => ask v a || ask v b
  | .IMPLIES a b => !(ask v a) || ask v b
  | .IFF a b => ask v a == ask v b

/-- `Player.convert_to_cnf` from `wumpus_world.py`.  The Python recursion is
not structural (IFF/IMPLIES/OR re-convert formulas rebuilt from already
converted pieces), so a fuel parameter is used; `none` means the recursion
would still be running at that depth, and every concrete use below is given
ample fuel.  Each case mirrors the source branch for branch, including the
order of the two distribution checks in the OR case and the fall-through
`('NOT', convert(operand))` for a negated IMPLIES/IFF. -/
def convert_to_cnf : Nat → Formula → Option Formula
  | 0, _ => none
  | fuel + 1, statement =>
    match statement with
    | .atom s => some (.atom s)
    | .IFF a b =>
      match convert_to_cnf fuel a, convert_to_cnf fuel b with
      | some a', some b' => convert_to_cnf fuel (.AND (.IMPLIES a' b') (.IMPLIES b' a'))
      | _, _ => none
    | .IMPLIES a b =>
      match convert_to_cnf fuel a, convert_to_cnf fuel b with
      | some a', some b' => convert_to_cnf fuel (.OR (.NOT a') b')
      | _, _ => none
    | .NOT operand =>
      match operand with
      | .atom s => some (.NOT (.atom s))
      | .NOT x => convert_to_cnf fuel x
      | .AND x y => convert_to_cnf fuel (.OR (.NOT x) (.NOT y))
      | .OR x y => convert_to_cnf fuel (.AND (.NOT x) (.NOT y))
      | g =>
        match convert_to_cnf fuel g with
        | some g' => some (.NOT g')
        | none => none
    | .OR a b =>
      match convert_to_cnf fuel a, convert_to_cnf fuel b with
      | some left, some right =>
        match left with
        | .AND p q => convert_to_cnf fuel (.AND (.OR p right) (.OR q right))
        | _ =>
          match right with
          | .AND p q => convert_to_cnf fuel (.AND (.OR left p) (.OR left q))
          | _ => some (.OR left right)
      | _, _ => none
    | .AND a b =>
      match convert_to_cnf fuel a, convert_to_cnf fuel b with
      | some a', some b' => some (.AND a' b')
      | _, _ => none

/-- Size of a formula tree, the termination measure for OR-flattening. -/
def fsize : Formula → Nat
  | .atom _ => 1
  | .NOT a => fsize a + 1
  | .AND a b => fsize a + fsize b + 1
  | .OR a b => fsize a + fsize b + 1
  | .IMPLIES a b => fsize a + fsize b + 1
  | .IFF a b => fsize a + fsize b + 1

/-- The worklist loop inside `_extract_clauses`'s OR case: pop the front
operand; if it is an OR, push its two operands at the back, else emit it as
a clause literal.  Structural recursion on a step counter: each step shrinks
the worklist's total `fsize` by at least one, so the counter `flattenOr`
passes (that total size) is only exhausted once the worklist is empty. -/
def flattenOrGo : Nat → List Formula → List Formula
  | 0, rest => rest
  | _ + 1, [] => []
  | fuel + 1, .OR x y :: rest => flattenOrGo fuel (rest ++ [x, y])
  | fuel + 1, f :: rest => f :: flattenOrGo fuel rest

/-- OR-flattening of `_extract_clauses` with its sufficient step counter. -/
def flattenOr (l : List Formula) : List Formula := flattenOrGo ((l.map fsize).sum) l

/-- `Player._extract_clauses` from `wumpus_world.py`: an atom or a NOT node
is one single-literal clause, an AND node concatenates the clause lists of
its operands, an OR node flattens nested ORs into one clause. -/
def extract_clauses : Formula → List (List Formula)
  | .AND a b => extract_clauses a ++ extract_clauses b
  | .OR a b => [flattenOr [a, b]]
  | f => [[f]]

/-- `Player._literal_to_string` from `wumpus_world.py`: an atom maps to
itself, a NOT node prepends `~`; anything else raises `ValueError`,
modelled as `none`. -/
def literal_to_string : Formula → Option String
  | .atom s => some s
  | .NOT x => (literal_to_string x).map (fun t => "~" ++ t)
  | _ => none

/-- `Player.resolve_clauses` from `wumpus_world.py`: for every pair
`(di ∈ ci, dj ∈ cj)` with `di == '~' + dj or dj == '~' + di`, add the
resolvent `(ci - {di}) | (cj - {dj})` to the result set. -/
def resolve_clauses (ci cj : Clause) : List Clause :=
  ci.foldl
    (fun acc di =>
      cj.foldl
        (fun acc2 dj =>
          if di = "~" ++ dj ∨ dj = "~" ++ di then
            sinsert clauseLtB (sunion strLtB (ci.erase di) (cj.erase dj)) acc2
          else acc2)
        acc)
    []

/-- The `while True` loop of `Player.inference_by_resolution`
(`wumpus_world.py` lines 181–194): resolve all index pairs `i < j` of the
clause list, return `true` if the empty clause appears, `false` when every
resolvent is already in the list (saturation), else append the new clauses
and repeat.  The source loop is unbounded; fuel counts rounds, `none`
meaning the loop would still be running. -/
def propLoop : Nat → List Clause → Option Bool
  | 0, _ => none
  | fuel + 1, clauses =>
    let new := (pairsOf clauses).foldl
      (fun acc p => sunion clauseLtB (resolve_clauses p.1 p.2) acc) []
    if ([] : Clause) ∈ new then some true
    else if new.all (fun c => decide (c ∈ clauses)) then some false
    else propLoop fuel (clauses ++ new.filter (fun c => decide (c ∉ clauses)))

/-- `Player.inference_by_resolution` from `wumpus_world.py`: convert every
KB sentence to CNF and extract its clauses, append the clauses of the
converted negated query, map every clause to a set of literal strings, and
run the saturation loop.  `cnfFuel` feeds `convert_to_cnf` and `fuel` the
loop; `none` results from exhausted fuel (or from a `ValueError` in
`_literal_to_string`, which no verified flow reaches). -/
def inference_by_resolution (fuel cnfFuel : Nat) (kb : List Formula) (query : String) :
    Option Bool := do
  let cnfs ← kb.mapM (convert_to_cnf cnfFuel)
  let negated_query ← convert_to_cnf cnfFuel (.NOT (.atom query))
  let clauseLists := (cnfs.map extract_clauses).flatten ++ extract_clauses negated_query
  let clauses ← clauseLists.mapM (fun cl => (cl.mapM literal_to_string).map mkClause)
  propLoop fuel clauses

/-- The propositional `initial_kb` of `wumpus_world.py`'s demo driver: it
contains the atom `A`, the formula `IMPLIES(A, B)`, and the wumpus-world
facts used by the two queries of the spec's testable property 6. -/
def initial_kb : List Formula :=
  [.atom "A",
   .IMPLIES (.atom "A") (.atom "B"),
   .NOT (.atom "P11"),
   .NOT (.atom "W11"),
   .NOT (.atom "B11"),
   .NOT (.atom "S11"),
   .NOT (.atom "P11"),
   .IFF (.atom "B11") (.OR (.atom "P12") (.atom "P21"))]

/-- The formula `IFF(A, B)` of the spec's CNF-conversion example. -/
def iffAB : Formula := .IFF (.atom "A") (.atom "B")

/-- What `convert_to_cnf` produces on `IFF(A, B)`:
`AND(OR(NOT A, B), OR(NOT B, A))`. -/
def cnfIffAB : Formula :=
  .AND (.OR (.NOT (.atom "A")) (.atom "B")) (.OR (.NOT (.atom "B")) (.atom "A"))

/-- Truth assignment making no atom true. -/
def vNone : String → Bool := fun _ => false

/-- Truth assignment making exactly `A` true. -/
def vOnlyA : String → Bool := fun s => s == "A"

/-- Truth assignment making exactly `B` true. -/
def vOnlyB : String → Bool := fun s => s == "B"

/-- Truth assignment making every atom true. -/
def vAll : String → Bool := fun _ => true

end Wumpus

/-- A digit character is never alphabetic. -/
theorem digit_not_alpha (c : Char) (h : c.isDigit = true) : c.isAlpha = false := by
  simp [Char.isDigit, UInt32.le_def, BitVec.le_def] at h
  simp [Char.isAlpha, Char.isUpper, Char.isLower, UInt32.le_def, BitVec.le_def]
  omega

namespace Wumpus

/-- Boolean truth table of the IFF expansion. -/
theorem bool_iff_expand : ∀ x y : Bool, ((!x || y) && (!y || x)) = (x == y) := by decide

/-- Boolean distribution of OR over AND, AND on the left. -/
theorem bool_or_distrib_left : ∀ p q r : Bool, ((p || r) && (q || r)) = ((p && q) || r) := by
  decide

/-- Boolean distribution of OR over AND, AND on the right. -/
theorem bool_or_distrib_right : ∀ p q r : Bool, ((p || q) && (p || r)) = (p || (q && r)) := by
  decide

end Wumpus

namespace Wumpus

/-- C4: CNF conversion is semantically equivalence-preserving — whenever
`Player.convert_to_cnf` completes (modelled with fuel: `= some g`), the
output `g` evaluates, under every truth assignment to the atoms, to the same
truth value as the input formula under the connective semantics of
`World.ask`. -/
theorem convert_to_cnf_preserves_ask (v : String → Bool) (fuel : Nat) (f g : Formula)
    (h : convert_to_cnf fuel f = some g) : ask v g = ask v f := by
  induction fuel generalizing f g with
  | zero => simp [convert_to_cnf] at h
  | succ n ih =>
    cases f with
    | atom s =>
      simp [convert_to_cnf] at h
      subst h; rfl
    | IFF a b =>
      rw [convert_to_cnf] at h
      cases ha : convert_to_cnf n a with
      | none => rw [ha] at h; simp at h
      | some a' =>
        cases hb : convert_to_cnf n b with
        | none => rw [ha, hb] at h; simp at h
        | some b' =>
          rw [ha, hb] at h
          simp only at h
          have hA := ih _ _ ha
          have hB := ih _ _ hb
          rw [ih _ _ h]
          simp [ask, hA, hB, bool_iff_expand]
    | IMPLIES a b =>
      rw [convert_to_cnf] at h
      cases ha : convert_to_cnf n a with
      | none => rw [ha] at h; simp at h
      | some a' =>
        cases hb : convert_to_cnf n b with
        | none => rw [ha, hb] at h; simp at h
        | some b' =>
          rw [ha, hb] at h
          simp only at h
          rw [ih _ _ h]
          simp [ask, ih _ _ ha, ih _ _ hb]
    | AND a b =>
      rw [convert_to_cnf] at h
      cases ha : convert_to_cnf n a with
      | none => rw [ha] at h; simp at h
      | some a' =>
        cases hb : convert_to_cnf n b with
        | none => rw [ha, hb] at h; simp at h
        | some b' =>
          rw [ha, hb] at h
          simp only at h
          obtain rfl : Formula.AND a' b' = g := by simpa using h
          simp [ask, ih _ _ ha, ih _ _ hb]
    | NOT operand =>
      cases operand with
      | atom s =>
        simp [convert_to_cnf] at h
        subst h; rfl
      | NOT x =>
        rw [convert_to_cnf] at h
        rw [ih _ _ h]
        simp [ask]
      | AND x y =>
        rw [convert_to_cnf] at h
        rw [ih _ _ h]
        simp [ask]
      | OR x y =>
        rw [convert_to_cnf] at h
        rw [ih _ _ h]
        simp [ask]
      | IMPLIES x y =>
        cases hg : convert_to_cnf n (Formula.IMPLIES x y) with
        | none => simp [convert_to_cnf, hg] at h
        | some g' =>
          simp only [convert_to_cnf, hg] at h
          obtain rfl : Formula.NOT g' = g := by simpa using h
          simp [ask, ih _ _ hg]
      | IFF x y =>
        cases hg : convert_to_cnf n (Formula.IFF x y) with
        | none => simp [convert_to_cnf, hg] at h
        | some g' =>
          simp only [convert_to_cnf, hg] at h
          obtain rfl : Formula.NOT g' = g := by simpa using h
          simp [ask, ih _ _ hg]
    | OR a b =>
      rw [convert_to_cnf] at h
      cases ha : convert_to_cnf n a with
      | none => rw [ha] at h; simp at h
      | some left =>
        cases hb : convert_to_cnf n b with
        | none => rw [ha, hb] at h; simp at h
        | some right =>
          rw [ha, hb] at h
          simp only at h
          have hA := ih _ _ ha
          have hB := ih _ _ hb
          split at h
          · rename_i p q
            have hg := ih _ _ h
            simp [ask] at hg hA ⊢
            rw [hg, bool_or_distrib_left, hA, hB]
          · split at h
            · rename_i p q
              have hg := ih _ _ h
              simp [ask] at hg hB ⊢
              rw [hg, bool_or_distrib_right, hA, hB]
            · obtain rfl := Option.some.inj h
              simp [ask, ← hA, ← hB]

end Wumpus

/-!
## Claim theorems
-/

/-- C1: the claim asks for a failure outcome of `unify` that is
distinguishable from a successful unification that binds nothing.  The code
violates this: on the spec's failing example `Parent(x,x)` vs
`Parent(John,Mary)` (x cannot bind to both John and Mary) `unify` returns
the empty dict — exactly the value that the legitimately successful
unification of two identical ground atoms returns. -/
theorem FOL.unify_failed_equals_empty_success :
    FOL.unify "Parent(x,x)" "Parent(John,Mary)" = [] ∧
    FOL.unify "King(John)" "King(John)" = [] := by
  decide

/-- C2: the claim says a failed unification for a literal pair contributes
no resolvent.  The code violates this: `unify` signals failure with `{}`
rather than `None`, so `resolve`'s `if substitution is not None` guard is
always satisfied and the failed pair `¬Parent(x,x)` / `Parent(John,Mary)`
still contributes its resolvent — here even the empty clause, a spurious
contradiction. -/
theorem FOL.resolve_failed_pair_still_contributes :
    FOL.resolve (mkClause ["¬Parent(x,x)"]) (mkClause ["Parent(John,Mary)"]) = [[]] := by
  decide

/-- C5: the claim says the argument splitter never splits on a comma inside
nested parentheses.  The code violates this: `re.split(r",\s*", ...)` splits
on every comma, so `Loves(father(John, Bill), x)` — two top-level arguments,
the first a nested compound term with an internal comma — is split into
three pieces, breaking the nested term apart. -/
theorem FOL.parse_sentence_splits_on_nested_comma :
    FOL.parse_sentence "Loves(father(John, Bill), x)" =
      (some "Loves", ["father(John", "Bill)", "x"]) ∧
    (FOL.parse_sentence "Loves(father(John, Bill), x)").2.length = 3 := by
  decide

/-- C6: `unify(Parent(x,y), Parent(John,Mary))` succeeds with exactly
{x→John, y→Mary}, and `unify(Loves(father(x),x), Loves(father(John),John))`
succeeds with exactly {x→John}, the nested compound term `father(x)` being
matched argument-wise against `father(John)`. -/
theorem FOL.unify_spec_examples :
    FOL.unify "Parent(x,y)" "Parent(John,Mary)" = [("x", "John"), ("y", "Mary")] ∧
    FOL.unify "Loves(father(x),x)" "Loves(father(John),John)" = [("x", "John")] := by
  decide

/-- C7: resolving `{¬King(x), ¬Greedy(x), Evil(x)}` with `{King(John)}`
yields exactly the single resolvent `{¬Greedy(John), Evil(John)}`: the
complementary pair is removed and the substitution {x→John} is applied to
every remaining literal. -/
theorem FOL.resolve_king_greedy_evil :
    FOL.resolve (mkClause ["¬King(x)", "¬Greedy(x)", "Evil(x)"]) (mkClause ["King(John)"]) =
      [mkClause ["¬Greedy(John)", "Evil(John)"]] := by
  decide

/-- C8: on the KB {¬King(x)∨¬Greedy(x)∨Evil(x), King(John), Greedy(John)}
with query Evil(John), the refutation engine terminates (in its third round,
hence within 3 rounds of fuel) and returns TRUE. -/
theorem FOL.inference_evil_john_true :
    FOL.inference_by_resolution 3 FOL.folMainKB "Evil(John)" = some true := by
  decide

set_option maxRecDepth 200000 in
/-- C9: with the propositional `initial_kb` (which contains the atom `A` and
the formula `IMPLIES(A,B)`), the propositional refutation engine returns
TRUE for query `B`, and terminates with FALSE for query `P21` (saturation is
reached in its fourth round with no empty clause). -/
theorem Wumpus.inference_initial_kb_queries :
    Wumpus.inference_by_resolution 2 20 Wumpus.initial_kb "B" = some true ∧
    Wumpus.inference_by_resolution 4 20 Wumpus.initial_kb "P21" = some false := by
  constructor
  · decide
  · decide

/-- C10: a term string is classified as a variable exactly when it is
non-empty, consists solely of alphabetic characters, and begins with a
lowercase letter; consequently a string containing a digit or a parenthesis
is never a variable, and substitution application leaves every non-variable
term unchanged. -/
theorem FOL.is_variable_characterization (t : String) (σ : FOL.Subst) :
    (FOL.is_variable t = true ↔
      t.data ≠ [] ∧ t.data.all Char.isAlpha = true ∧ (t.data.headD 'A').isLower = true) ∧
    ((∃ c ∈ t.data, c.isDigit = true ∨ c = '(' ∨ c = ')') → FOL.is_variable t = false) ∧
    (FOL.is_variable t = false → FOL.apply_substitution_to_term t σ = t) := by
  refine ⟨?_, ?_, ?_⟩
  · cases ht : t.data with
    | nil => simp [FOL.is_variable, ht]
    | cons c cs =>
      simp only [FOL.is_variable, ht]
      simp [List.all_cons, Bool.and_eq_true]
      tauto
  · rintro ⟨c, hmem, hc⟩
    have halpha : c.isAlpha = false := by
      rcases hc with hd | rfl | rfl
      · exact digit_not_alpha c hd
      · decide
      · decide
    cases ht : t.data with
    | nil => simp [FOL.is_variable, ht]
    | cons d ds =>
      rw [ht] at hmem
      simp only [FOL.is_variable, ht]
      have : (d :: ds).all Char.isAlpha = false := by
        simp only [List.all_eq_false]
        exact ⟨c, hmem, by simp [halpha]⟩
      simp [this]
  · intro hfalse
    simp [FOL.apply_substitution_to_term, hfalse]

/-- Witness for C10: concrete instances — `x1` (contains a digit) and
`father(x)` (contains parentheses) are not variables, and substitution
leaves `father(x)` unchanged even when `x` is bound. -/
theorem FOL.is_variable_characterization_witness :
    FOL.is_variable "x1" = false ∧
    FOL.is_variable "father(x)" = false ∧
    FOL.apply_substitution_to_term "father(x)" [("x", "John")] = "father(x)" :=
  ⟨(FOL.is_variable_characterization "x1" []).2.1 ⟨'1', by decide, Or.inl (by decide)⟩,
   (FOL.is_variable_characterization "father(x)" []).2.1 ⟨'(', by decide, Or.inr (Or.inl rfl)⟩,
   (FOL.is_variable_characterization "father(x)" [("x", "John")]).2.2 (by decide)⟩

/-- Witness for C4: `convert_to_cnf` turns `IFF(A,B)` into
`AND(OR(NOT A, B), OR(NOT B, A))`, and that output agrees with `IFF(A,B)`
under all four truth assignments to `A` and `B`. -/
theorem Wumpus.convert_to_cnf_preserves_ask_witness :
    Wumpus.convert_to_cnf 9 Wumpus.iffAB = some Wumpus.cnfIffAB ∧
    Wumpus.ask Wumpus.vNone Wumpus.cnfIffAB = Wumpus.ask Wumpus.vNone Wumpus.iffAB ∧
    Wumpus.ask Wumpus.vOnlyA Wumpus.cnfIffAB = Wumpus.ask Wumpus.vOnlyA Wumpus.iffAB ∧
    Wumpus.ask Wumpus.vOnlyB Wumpus.cnfIffAB = Wumpus.ask Wumpus.vOnlyB Wumpus.iffAB ∧
    Wumpus.ask Wumpus.vAll Wumpus.cnfIffAB = Wumpus.ask Wumpus.vAll Wumpus.iffAB :=
  ⟨by decide,
   Wumpus.convert_to_cnf_preserves_ask Wumpus.vNone 9 Wumpus.iffAB Wumpus.cnfIffAB (by decide),
   Wumpus.convert_to_cnf_preserves_ask Wumpus.vOnlyA 9 Wumpus.iffAB Wumpus.cnfIffAB (by decide),
   Wumpus.convert_to_cnf_preserves_ask Wumpus.vOnlyB 9 Wumpus.iffAB Wumpus.cnfIffAB (by decide),
   Wumpus.convert_to_cnf_preserves_ask Wumpus.vAll 9 Wumpus.iffAB Wumpus.cnfIffAB (by decide)⟩
